import Mathlib

/-!
Verification of the session transaction state machine in `session/txn.go`.

The embedding models:
- `Transaction`: the underlying kv.Transaction capability (external to the
  file under verification, modelled as an opaque store with call counters
  and injectable failures, per the capability contract in the spec);
- `TxnState`: the struct `TxnState` of `session/txn.go`, with its overlay
  buffer (`buf`), mutation ledger (`mutations`), dirty-operation log
  (`dirtyTableOP`) and the `doNotCommit` fault marker;
- `txnFuture`: the lazy-transaction promise and its `wait` resolution;
- `session`-level `StmtCommit` / `StmtRollback`, with the session-wide
  binlog prewrite mutations and the dirty DB modelled as sinks.

Keys and byte-string values are modelled as `Nat` and `List Nat`; the
overlay buffer (kv.MemBuffer, external to the file) is an association list
kept in ascending key order, with the empty value as the deletion tombstone,
following the write-overlay contract of the spec.
-/

deriving instance DecidableEq for Except

namespace SessionTxn

/-- Error values observable from the modelled operations. `notFound` stands
for kv.ErrNotExist / the not-found family recognised by kv.IsErrNotFound;
`underlyingErr k` is an opaque storage error raised by the underlying
transaction on key `k`; `nilDeref` marks the places where the Go code would
dereference a nil embedded `kv.Transaction` (a runtime panic) — theorems
are stated on states where it cannot occur. -/
inductive Err where
  | notFound
  | futureNotSet
  | invalidTxn
  | mockGetTS
  | nilDeref
  | underlyingErr (k : Nat)
  | other (code : Nat)
deriving DecidableEq, Repr

/-- Lookup in an association list keyed by `Nat` (first match). -/
def assocGet : List (Nat × List Nat) → Nat → Option (List Nat)
  | [], _ => none
  | (k', v) :: rest, k => if k = k' then some v else assocGet rest k

/-- Insert-or-replace in an association list kept in ascending key order.
Models a write to the ordered in-memory buffer (kv.MemBuffer.Set) and to
the underlying transaction's store. -/
def assocSet : List (Nat × List Nat) → Nat → List Nat → List (Nat × List Nat)
  | [], k, v => [(k, v)]
  | (k', v') :: rest, k, v =>
    if k < k' then (k, v) :: (k', v') :: rest
    else if k = k' then (k, v) :: rest
    else (k', v') :: assocSet rest k v

/-- Remove a key from an association list (models the underlying
transaction's Delete). -/
def assocDel : List (Nat × List Nat) → Nat → List (Nat × List Nat)
  | [], _ => []
  | (k', v) :: rest, k => if k = k' then assocDel rest k else (k', v) :: assocDel rest k

/-- Per-table binlog mutation (binlog.TableMutation): accumulated
replication-log deltas. Rows and keys are byte strings (`List Nat`),
ids are `Int` (int64), `sequence` holds the mutation-type markers. -/
structure TableMutation where
  tableId : Int
  insertedRows : List (List Nat)
  updatedRows : List (List Nat)
  deletedIds : List Int
  deletedPks : List (List Nat)
  deletedRows : List (List Nat)
  sequence : List Nat
deriving DecidableEq, Repr

/-- The underlying kv.Transaction capability. The store is an association
list; `commitCalls` / `rollbackCalls` count how often the capability's
Commit / Rollback were invoked; `commitFail`, `rollbackFail`, `failGet`,
`failSet`, `failDelete` inject opaque storage failures, so theorems can
quantify over every behaviour the opaque capability may exhibit. -/
structure Transaction where
  store : List (Nat × List Nat)
  valid : Bool
  startTS : Nat
  cap : Nat
  commitCalls : Nat
  rollbackCalls : Nat
  commitFail : Option Err
  rollbackFail : Option Err
  failGet : List Nat
  failSet : List Nat
  failDelete : List Nat
deriving DecidableEq, Repr

/-- Underlying transaction read: injected failure, else store lookup,
absent keys giving the not-found error. -/
def Transaction.Get (tx : Transaction) (k : Nat) : Except Err (List Nat) :=
  if tx.failGet.contains k then .error (.underlyingErr k)
  else
    match assocGet tx.store k with
    | none => .error .notFound
    | some v => .ok v

/-- Underlying transaction write; fails (leaving the store unchanged) on an
injected failure for `k`. -/
def Transaction.Set (tx : Transaction) (k : Nat) (v : List Nat) : Except Err Transaction :=
  if tx.failSet.contains k then .error (.underlyingErr k)
  else .ok { tx with store := assocSet tx.store k v }

/-- Underlying transaction delete; fails (leaving the store unchanged) on an
injected failure for `k`. -/
def Transaction.Delete (tx : Transaction) (k : Nat) : Except Err Transaction :=
  if tx.failDelete.contains k then .error (.underlyingErr k)
  else .ok { tx with store := assocDel tx.store k }

/-- Underlying transaction commit: counts the call and returns the injected
outcome. -/
def Transaction.Commit (tx : Transaction) : Except Err Unit × Transaction :=
  let tx' := { tx with commitCalls := tx.commitCalls + 1 }
  match tx.commitFail with
  | some e => (.error e, tx')
  | none => (.ok (), tx')

/-- Underlying transaction rollback: counts the call and returns the
injected outcome. -/
def Transaction.Rollback (tx : Transaction) : Except Err Unit × Transaction :=
  let tx' := { tx with rollbackCalls := tx.rollbackCalls + 1 }
  match tx.rollbackFail with
  | some e => (.error e, tx')
  | none => (.ok (), tx')

/-- kv.Transaction.SetCap: record the write-buffer capacity hint. -/
def Transaction.SetCap (tx : Transaction) (c : Nat) : Transaction :=
  { tx with cap := c }

/-- Outcome of oracle.Future.Wait(): a start timestamp or a
timestamp-service error. Modelled as a fixed outcome since the wait is the
single, one-shot suspension point. -/
structure oracleFuture where
  result : Except Err Nat
deriving DecidableEq, Repr

/-- kv.Storage: can begin a transaction at a given start timestamp or at a
freshly assigned one (`freshTS`); either path may fail opaquely. -/
structure Storage where
  initStore : List (Nat × List Nat)
  freshTS : Nat
  beginWithTSFail : Option Err
  beginFail : Option Err
deriving DecidableEq, Repr

/-- A freshly begun transaction over a snapshot of the store, bound to the
given start timestamp. -/
def newTxn (store : List (Nat × List Nat)) (ts : Nat) : Transaction :=
  ⟨store, true, ts, 0, 0, 0, none, none, [], [], []⟩

/-- Storage.BeginWithStartTS: begin a transaction bound to exactly `ts`. -/
def Storage.BeginWithStartTS (s : Storage) (ts : Nat) : Except Err Transaction :=
  match s.beginWithTSFail with
  | some e => .error e
  | none => .ok (newTxn s.initStore ts)

/-- Storage.Begin: begin a transaction with a freshly assigned timestamp. -/
def Storage.Begin (s : Storage) : Except Err Transaction :=
  match s.beginFail with
  | some e => .error e
  | none => .ok (newTxn s.initStore s.freshTS)

/-- txnFuture of `session/txn.go`: a promise of a transaction, holding the
timestamp future, the store, and the deterministic-failure flag. -/
structure txnFuture where
  future : oracleFuture
  store : Storage
  mockFail : Bool
deriving DecidableEq, Repr

/-- txnFuture.wait of `session/txn.go`: if flagged to fail, return the
mock timestamp error; otherwise wait for the timestamp and begin with it on
success, falling back to an ordinary Begin when the wait errs. -/
def txnFuture.wait (tf : txnFuture) : Except Err Transaction :=
  if tf.mockFail then .error .mockGetTS
  else
    match tf.future.result with
    | .ok startTS => tf.store.BeginWithStartTS startTS
    | .error _ => tf.store.Begin

/-- dirtyTableOperation of `session/txn.go`: an operation logged for the
dirty table cache, applied at statement commit. Datums are opaque (`Nat`). -/
structure dirtyTableOperation where
  kind : Nat
  tid : Int
  handle : Int
  row : List Nat
deriving DecidableEq, Repr

/-- table.DirtyTableAddRow (constant from the table package; only its
distinctness from the other two kinds matters here). -/
def DirtyTableAddRow : Nat := 0

/-- table.DirtyTableDeleteRow. -/
def DirtyTableDeleteRow : Nat := 1

/-- table.DirtyTableTruncate. -/
def DirtyTableTruncate : Nat := 2

/-- An event applied to the external dirty-row cache. -/
inductive DirtyEvent where
  | addRow (tid : Int) (handle : Int) (row : List Nat)
  | deleteRow (tid : Int) (handle : Int)
  | truncateTable (tid : Int)
deriving DecidableEq, Repr

/-- executor.DirtyDB, modelled as the ordered log of cache operations it
received (the row-cache sink contract of the spec). -/
structure DirtyDB where
  events : List DirtyEvent
deriving DecidableEq, Repr

/-- Row-cache sink: add a row. -/
def DirtyDB.AddRow (db : DirtyDB) (tid handle : Int) (row : List Nat) : DirtyDB :=
  ⟨db.events ++ [.addRow tid handle row]⟩

/-- Row-cache sink: delete a row. -/
def DirtyDB.DeleteRow (db : DirtyDB) (tid handle : Int) : DirtyDB :=
  ⟨db.events ++ [.deleteRow tid handle]⟩

/-- Row-cache sink: truncate a table. -/
def DirtyDB.TruncateTable (db : DirtyDB) (tid : Int) : DirtyDB :=
  ⟨db.events ++ [.truncateTable tid]⟩

/-- mergeToDirtyDB of `session/txn.go`: dispatch one logged operation to the
dirty DB by kind (unknown kinds fall through, as in the Go switch). -/
def mergeToDirtyDB (db : DirtyDB) (op : dirtyTableOperation) : DirtyDB :=
  if op.kind = DirtyTableAddRow then db.AddRow op.tid op.handle op.row
  else if op.kind = DirtyTableDeleteRow then db.DeleteRow op.tid op.handle
  else if op.kind = DirtyTableTruncate then db.TruncateTable op.tid
  else db

/-- mergeToMutation of `session/txn.go`: append every field of `m2` to the
corresponding field of `m1`. -/
def mergeToMutation (m1 m2 : TableMutation) : TableMutation :=
  { m1 with
    insertedRows := m1.insertedRows ++ m2.insertedRows
    updatedRows := m1.updatedRows ++ m2.updatedRows
    deletedIds := m1.deletedIds ++ m2.deletedIds
    deletedPks := m1.deletedPks ++ m2.deletedPks
    deletedRows := m1.deletedRows ++ m2.deletedRows
    sequence := m1.sequence ++ m2.sequence }

/-- TxnState of `session/txn.go`: the embedded (possibly nil) underlying
transaction, the possibly pending future, the overlay buffer, the mutation
ledger, the dirty-operation log and the fault marker. -/
structure TxnState where
  transaction : Option Transaction
  txnFuture : Option txnFuture
  buf : List (Nat × List Nat)
  mutations : List (Int × TableMutation)
  dirtyTableOP : List dirtyTableOperation
  doNotCommit : Option Err
deriving DecidableEq, Repr

/-- The zero-valued TxnState a session starts from: Invalid phase, all
buffers empty, no fault marker. -/
def initialTxnState : TxnState :=
  ⟨none, none, [], [], [], none⟩

/-- TxnState.Valid: a transaction is held and it reports itself valid. -/
def TxnState.Valid (st : TxnState) : Bool :=
  match st.transaction with
  | none => false
  | some tx => tx.valid

/-- TxnState.pending: no transaction and a pending future. -/
def TxnState.pending (st : TxnState) : Bool :=
  st.transaction.isNone && st.txnFuture.isSome

/-- changeInvalidToValid of `session/txn.go`. -/
def TxnState.changeInvalidToValid (st : TxnState) (txn : Transaction) : TxnState :=
  { st with transaction := some txn, txnFuture := none }

/-- changeInvalidToPending of `session/txn.go` (make_pending): attach a
future, clearing any transaction reference. -/
def TxnState.changeInvalidToPending (st : TxnState) (future : SessionTxn.txnFuture) : TxnState :=
  { st with transaction := none, txnFuture := some future }

/-- changePendingToValid of `session/txn.go` (resolve_pending): error if no
future is set; otherwise consume the future, wait on it, and either adopt
the resolved transaction (with the capacity hint) or clear the transaction
and propagate the error. -/
def TxnState.changePendingToValid (st : TxnState) (txnCap : Nat) :
    Except Err Unit × TxnState :=
  match st.txnFuture with
  | none => (.error .futureNotSet, st)
  | some future =>
    match future.wait with
    | .error e => (.error e, { st with txnFuture := none, transaction := none })
    | .ok txn =>
      (.ok (), { st with txnFuture := none, transaction := some (txn.SetCap txnCap) })

/-- changeToInvalid of `session/txn.go` (invalidate). -/
def TxnState.changeToInvalid (st : TxnState) : TxnState :=
  { st with transaction := none, txnFuture := none }

/-- TxnState.cleanup of `session/txn.go`: reset the overlay buffer, clear
the mutation ledger and truncate the dirty-operation log. The fault marker
and the phase fields are untouched. -/
def TxnState.cleanup (st : TxnState) : TxnState :=
  { st with buf := [], mutations := [], dirtyTableOP := [] }

/-- TxnState.reset of `session/txn.go`: clear the fault marker, run cleanup
and drop to Invalid. -/
def TxnState.reset (st : TxnState) : TxnState :=
  ({ st with doNotCommit := none }).cleanup.changeToInvalid

/-- TxnState.Get of `session/txn.go`: overlay first; an overlay miss
delegates to the underlying transaction; an empty value at either layer
surfaces as not-found. -/
def TxnState.Get (st : TxnState) (k : Nat) : Except Err (List Nat) :=
  match assocGet st.buf k with
  | some val => if val.length = 0 then .error .notFound else .ok val
  | none =>
    match st.transaction with
    | none => .error .nilDeref
    | some tx =>
      match tx.Get k with
      | .error e => .error e
      | .ok val => if val.length = 0 then .error .notFound else .ok val

/-- TxnState.Set of `session/txn.go`: write only into the overlay buffer. -/
def TxnState.Set (st : TxnState) (k : Nat) (v : List Nat) : TxnState :=
  { st with buf := assocSet st.buf k v }

/-- TxnState.Delete of `session/txn.go`: store the empty-value tombstone in
the overlay buffer. -/
def TxnState.Delete (st : TxnState) (k : Nat) : TxnState :=
  { st with buf := assocSet st.buf k [] }

/-- Result of a transaction-level Commit or Rollback: the returned error (if
any), the reset TxnState, and the final state of the underlying transaction
object (`none` when no transaction was held). -/
structure CommitOut where
  res : Except Err Unit
  st : TxnState
  txFinal : Option Transaction
deriving DecidableEq, Repr

/-- Body of TxnState.Commit before the deferred reset: the non-empty-buffer
guard, then the fault-marker path (rollback, error logged not propagated,
stored fault returned), then the ordinary underlying commit. -/
def commitBody (st : TxnState) : Except Err Unit × Option Transaction :=
  if st.mutations.length != 0 || st.dirtyTableOP.length != 0 || st.buf.length != 0 then
    (.error .invalidTxn, st.transaction)
  else
    match st.doNotCommit with
    | some e =>
      match st.transaction with
      | none => (.error .nilDeref, none)
      | some tx => (.error e, some (tx.Rollback).snd)
    | none =>
      match st.transaction with
      | none => (.error .nilDeref, none)
      | some tx => ((tx.Commit).fst, some (tx.Commit).snd)

/-- TxnState.Commit of `session/txn.go`: run the body, with the deferred
reset applied to the state on every path. -/
def TxnState.Commit (st : TxnState) : CommitOut :=
  let p := commitBody st
  ⟨p.fst, st.reset, p.snd⟩

/-- Body of TxnState.Rollback before the deferred reset: roll back the
underlying transaction and propagate its outcome. -/
def rollbackBody (st : TxnState) : Except Err Unit × Option Transaction :=
  match st.transaction with
  | none => (.error .nilDeref, none)
  | some tx => ((tx.Rollback).fst, some (tx.Rollback).snd)

/-- TxnState.Rollback of `session/txn.go`: run the body, with the deferred
reset applied to the state on every path. -/
def TxnState.Rollback (st : TxnState) : CommitOut :=
  let p := rollbackBody st
  ⟨p.fst, st.reset, p.snd⟩

/-- The body of the kv.WalkMemBuffer drain in StmtCommit of
`session/txn.go`: walk the overlay in key order and, per entry, delete the
key from the underlying transaction when the value is the empty tombstone,
set it otherwise; the first failing operation aborts the walk. Returns the
transaction as mutated so far and the aborting error, if any. (The gofail
mock counter in the source is compiled out: `count` is never incremented,
so the `count > 3` guard never fires.) -/
def drainBuf : Transaction → List (Nat × List Nat) → Transaction × Option Err
  | tx, [] => (tx, none)
  | tx, (k, v) :: rest =>
    match (if v.length = 0 then tx.Delete k else tx.Set k v) with
    | .error e => (tx, some e)
    | .ok tx' => drainBuf tx' rest

/-- getBinlogMutation followed by mergeToMutation, as StmtCommit of
`session/txn.go` performs per table: find the session prewrite mutation for
`tid` and merge `delta` into it, appending a fresh mutation for `tid` when
none exists. -/
def applyBinlogDelta : List TableMutation → Int → TableMutation → List TableMutation
  | [], tid, delta => [mergeToMutation ⟨tid, [], [], [], [], [], []⟩ delta]
  | m :: rest, tid, delta =>
    if m.tableId = tid then mergeToMutation m delta :: rest
    else m :: applyBinlogDelta rest tid delta

/-- The session: its TxnState, the session-wide binlog prewrite mutations
(the replication ledger sink) and the dirty DB (the row-cache sink). -/
structure session where
  txn : TxnState
  binMutations : List TableMutation
  dirtyDB : DirtyDB
deriving DecidableEq, Repr

/-- StmtCommit of `session/txn.go`: drain the overlay into the underlying
transaction; on a drain failure set the fault marker and propagate the
error; on success merge the mutation ledger into the session binlog and
apply the dirty-operation log to the dirty DB. The deferred cleanup clears
the overlay, ledger and dirty log on every path. (Go map iteration order
over the ledger is unspecified; the model iterates in ledger list order.
When no transaction is held and the overlay is non-empty the Go code would
panic inside the walk; the model returns `nilDeref` without setting the
fault marker — theorems are stated on states holding a transaction.) -/
def session.StmtCommit (s : session) : Except Err Unit × session :=
  let st := s.txn
  match st.transaction with
  | none =>
    if st.buf.length = 0 then
      let bins := st.mutations.foldl (fun b p => applyBinlogDelta b p.fst p.snd) s.binMutations
      let db := st.dirtyTableOP.foldl mergeToDirtyDB s.dirtyDB
      (.ok (), { s with txn := st.cleanup, binMutations := bins, dirtyDB := db })
    else (.error .nilDeref, { s with txn := st.cleanup })
  | some tx =>
    match drainBuf tx st.buf with
    | (tx1, some e) =>
      (.error e, { s with txn := ({ st with transaction := some tx1, doNotCommit := some e }).cleanup })
    | (tx1, none) =>
      let bins := st.mutations.foldl (fun b p => applyBinlogDelta b p.fst p.snd) s.binMutations
      let db := st.dirtyTableOP.foldl mergeToDirtyDB s.dirtyDB
      (.ok (), { s with txn := ({ st with transaction := some tx1 }).cleanup,
                        binMutations := bins, dirtyDB := db })

/-- StmtRollback of `session/txn.go`: clear the overlay, ledger and dirty
log; the underlying transaction is untouched. -/
def session.StmtRollback (s : session) : session :=
  { s with txn := s.txn.cleanup }

/-- Phase configuration Invalid: no transaction and no future. -/
def invalidPhase (st : TxnState) : Prop :=
  st.transaction = none ∧ st.txnFuture = none

/-- Phase configuration Pending: no transaction and a future. -/
def pendingPhase (st : TxnState) : Prop :=
  st.transaction = none ∧ st.txnFuture ≠ none

/-- Phase configuration Valid: a transaction and no future. -/
def validPhase (st : TxnState) : Prop :=
  st.transaction ≠ none ∧ st.txnFuture = none

/-- States reachable from the initial Invalid state through the state
machine's transition operations (the four change functions, commit and
rollback) together with overlay writes. -/
inductive Reachable : TxnState → Prop where
  | init : Reachable initialTxnState
  | invalidToValid (st : TxnState) (txn : Transaction) :
      Reachable st → Reachable (st.changeInvalidToValid txn)
  | makePending (st : TxnState) (f : txnFuture) :
      Reachable st → Reachable (st.changeInvalidToPending f)
  | resolvePending (st : TxnState) (cap : Nat) :
      Reachable st → Reachable (st.changePendingToValid cap).snd
  | invalidate (st : TxnState) :
      Reachable st → Reachable st.changeToInvalid
  | commit (st : TxnState) :
      Reachable st → Reachable (st.Commit).st
  | rollback (st : TxnState) :
      Reachable st → Reachable (st.Rollback).st
  | overlaySet (st : TxnState) (k : Nat) (v : List Nat) :
      Reachable st → Reachable (st.Set k v)
  | overlayDel (st : TxnState) (k : Nat) :
      Reachable st → Reachable (st.Delete k)

/-- A TxnState fully reset: Invalid phase, empty overlay, ledger and dirty
log, no fault marker. -/
def isResetState (st : TxnState) : Prop :=
  st.transaction = none ∧ st.txnFuture = none ∧ st.buf = [] ∧
  st.mutations = [] ∧ st.dirtyTableOP = [] ∧ st.doNotCommit = none

/-- A plain healthy underlying transaction for concrete instances. -/
def baseTx : Transaction :=
  ⟨[], true, 1, 0, 0, 0, none, none, [], [], []⟩

/-- Underlying transaction whose Set fails on key 5 (injected flush fault). -/
def c1Tx : Transaction :=
  { baseTx with failSet := [5] }

/-- Session with one overlay entry whose drain will fail. -/
def c1Session : session :=
  ⟨⟨some c1Tx, none, [(5, [1])], [], [], none⟩, [], ⟨[]⟩⟩

/-- TxnState with a non-empty overlay buffer at transaction-commit time. -/
def c2St : TxnState :=
  ⟨some baseTx, none, [(0, [1])], [], [], none⟩

/-- Clean valid-phase TxnState. -/
def c3St : TxnState :=
  ⟨some baseTx, none, [], [], [], none⟩

/-- TxnState whose overlay holds a tombstone for key 2 while the underlying
transaction holds a value for key 3. -/
def c4St : TxnState :=
  ⟨some { baseTx with store := [(3, [7])] }, none, [(2, [])], [], [], none⟩

/-- TxnState whose underlying transaction holds a value for key 0. -/
def c5St : TxnState :=
  ⟨some { baseTx with store := [(0, [9])] }, none, [], [], [], none⟩

/-- Future that resolves successfully to a transaction at timestamp 42. -/
def c7Future : txnFuture :=
  ⟨⟨.ok 42⟩, ⟨[], 7, none, none⟩, false⟩

/-- Pending TxnState holding `c7Future`. -/
def c7St : TxnState :=
  ⟨none, some c7Future, [], [], [], none⟩

/-- Future whose timestamp wait yields 5 against a store with fresh
timestamp 9. -/
def c8Future : txnFuture :=
  ⟨⟨.ok 5⟩, ⟨[], 9, none, none⟩, false⟩

/-- Future flagged to fail deterministically. -/
def c8MockFuture : txnFuture :=
  ⟨⟨.ok 5⟩, ⟨[], 9, none, none⟩, true⟩

/-- Session in valid phase with a drainable overlay entry, a ledger entry
and a dirty operation. -/
def c10Session : session :=
  ⟨⟨some baseTx, none, [(4, [2])], [(11, ⟨11, [[3]], [], [], [], [], []⟩)],
    [⟨DirtyTableAddRow, 11, 1, [3]⟩], none⟩, [], ⟨[]⟩⟩

/-! Helper lemmas shared by the claim theorems. -/

/-- Writing a key and reading it back through the association list yields
the written value. -/
theorem assocGet_assocSet_self (l : List (Nat × List Nat)) (k : Nat) (v : List Nat) :
    assocGet (assocSet l k v) k = some v := by
  induction l with
  | nil => simp [assocSet, assocGet]
  | cons hd tl ih =>
    obtain ⟨k', v'⟩ := hd
    by_cases h1 : k < k'
    · simp [assocSet, h1, assocGet]
    · by_cases h2 : k = k'
      · simp [assocSet, h1, h2, assocGet]
      · simp [assocSet, h1, h2, assocGet, ih]

/-- A successful underlying Set leaves the commit and rollback call
counters unchanged. -/
theorem txSet_calls (tx tx' : Transaction) (k : Nat) (v : List Nat)
    (h : tx.Set k v = .ok tx') :
    tx'.commitCalls = tx.commitCalls ∧ tx'.rollbackCalls = tx.rollbackCalls := by
  unfold Transaction.Set at h
  split at h
  · exact absurd h (by simp)
  · simp only [Except.ok.injEq] at h
    subst h
    exact ⟨rfl, rfl⟩

/-- A successful underlying Delete leaves the commit and rollback call
counters unchanged. -/
theorem txDelete_calls (tx tx' : Transaction) (k : Nat)
    (h : tx.Delete k = .ok tx') :
    tx'.commitCalls = tx.commitCalls ∧ tx'.rollbackCalls = tx.rollbackCalls := by
  unfold Transaction.Delete at h
  split at h
  · exact absurd h (by simp)
  · simp only [Except.ok.injEq] at h
    subst h
    exact ⟨rfl, rfl⟩

/-- The overlay drain only issues Set and Delete against the underlying
transaction, so the commit and rollback call counters of the (possibly
partially) drained transaction equal those of the starting one. -/
theorem drainBuf_calls (l : List (Nat × List Nat)) (tx : Transaction) :
    (drainBuf tx l).fst.commitCalls = tx.commitCalls ∧
    (drainBuf tx l).fst.rollbackCalls = tx.rollbackCalls := by
  induction l generalizing tx with
  | nil => simp [drainBuf]
  | cons hd tl ih =>
    obtain ⟨k, v⟩ := hd
    simp only [drainBuf]
    cases hop : (if v.length = 0 then tx.Delete k else tx.Set k v) with
    | error e => simp
    | ok tx' =>
      have hc : tx'.commitCalls = tx.commitCalls ∧ tx'.rollbackCalls = tx.rollbackCalls := by
        by_cases hv : v.length = 0
        · exact txDelete_calls tx tx' k (by simpa [hv] using hop)
        · exact txSet_calls tx tx' k v (by simpa [hv] using hop)
      simp only []
      exact ⟨(ih tx').1.trans hc.1, (ih tx').2.trans hc.2⟩

/-! Claim theorems. -/

/-- C9: mergeToMutation appends each of the source's row-delta fields
(inserted rows, updated rows, deleted ids, deleted pks, deleted rows) to
the destination's corresponding field, preserving intra-field arrival order
with no reordering or deduplication, so merging a mutation carrying
inserted rows `[a, b]` and then one carrying `[c]` accumulates
`[a, b, c]`. -/
theorem mergeToMutation_appends (d s1 s2 : TableMutation) :
    ((mergeToMutation d s1).insertedRows = d.insertedRows ++ s1.insertedRows ∧
     (mergeToMutation d s1).updatedRows = d.updatedRows ++ s1.updatedRows ∧
     (mergeToMutation d s1).deletedIds = d.deletedIds ++ s1.deletedIds ∧
     (mergeToMutation d s1).deletedPks = d.deletedPks ++ s1.deletedPks ∧
     (mergeToMutation d s1).deletedRows = d.deletedRows ++ s1.deletedRows) ∧
    (mergeToMutation (mergeToMutation d s1) s2).insertedRows =
      d.insertedRows ++ s1.insertedRows ++ s2.insertedRows := by
  simp [mergeToMutation]

/-- C2: whenever the overlay buffer, the mutation ledger or the
dirty-operation log is non-empty, Commit returns the
internal-inconsistency error and leaves the underlying transaction
completely untouched (in particular its Commit is never invoked). -/
theorem commit_requires_empty_buffers (st : TxnState)
    (h : st.buf ≠ [] ∨ st.mutations ≠ [] ∨ st.dirtyTableOP ≠ []) :
    (st.Commit).res = .error .invalidTxn ∧ (st.Commit).txFinal = st.transaction := by
  have hcond :
      (st.mutations.length != 0 || st.dirtyTableOP.length != 0 || st.buf.length != 0) = true := by
    rcases h with h | h | h <;> simp [List.length_eq_zero, h]
  simp [TxnState.Commit, commitBody, hcond]

/-- Witness for C2 at a state with one overlay entry. -/
theorem commit_requires_empty_buffers_witness :
    (c2St.Commit).res = .error .invalidTxn ∧ (c2St.Commit).txFinal = c2St.transaction :=
  commit_requires_empty_buffers c2St (Or.inl (by decide))

/-- C4: after Delete on a key, Get on that key reports not-found whatever
the underlying transaction holds for it; and a key held in the overlay
with the empty tombstone value always surfaces as not-found, never as an
empty value. -/
theorem tombstone_correctness (st : TxnState) (k : Nat) :
    (st.Delete k).Get k = .error .notFound ∧
    (assocGet st.buf k = some [] → st.Get k = .error .notFound) := by
  constructor
  · simp [TxnState.Delete, TxnState.Get, assocGet_assocSet_self]
  · intro h
    simp [TxnState.Get, h]

/-- Witness for C4: deleting key 3 (present with value `[7]` in the
underlying transaction) yields not-found, and the tombstoned key 2
surfaces as not-found. -/
theorem tombstone_correctness_witness :
    (c4St.Delete 3).Get 3 = .error .notFound ∧ c4St.Get 2 = .error .notFound :=
  ⟨(tombstone_correctness c4St 3).1, (tombstone_correctness c4St 2).2 (by decide)⟩

/-- Counterexample to C5 as stated: with the empty byte string as the
value, Set stores the deletion tombstone, so Get reports not-found rather
than returning the written (empty) value — even though the underlying
transaction holds `[9]` for the key. -/
theorem overlay_shadowing_cex :
    (c5St.Set 0 []).Get 0 = .error .notFound ∧
    (c5St.Set 0 []).Get 0 ≠ .ok [] := by
  constructor
  · decide
  · decide

/-- C5 (amended to non-empty values): after Set of a non-empty value, Get
returns exactly that value, whatever the underlying transaction holds for
the key. -/
theorem overlay_shadowing (st : TxnState) (k : Nat) (v : List Nat) (hv : v ≠ []) :
    (st.Set k v).Get k = .ok v := by
  have hlen : ¬v.length = 0 := by simpa [List.length_eq_zero] using hv
  simp [TxnState.Set, TxnState.Get, assocGet_assocSet_self, hlen]

/-- Witness for C5 (amended): key 0 holds `[9]` in the underlying
transaction, yet Get returns the overlay value `[4]`. -/
theorem overlay_shadowing_witness :
    (c5St.Set 0 [4]).Get 0 = .ok [4] :=
  overlay_shadowing c5St 0 [4] (by decide)

/-- C7: changePendingToValid fails with the future-not-set error (state
unchanged) whenever no future is held; with a future held, successful
resolution adopts the resolved transaction carrying the caller's capacity
hint and reaches the Valid configuration, while a failed resolution leaves
no underlying transaction and propagates the error. -/
theorem resolve_pending_spec (st : TxnState) (cap : Nat) :
    (st.txnFuture = none → st.changePendingToValid cap = (.error .futureNotSet, st)) ∧
    (∀ f : txnFuture, st.txnFuture = some f →
      (∀ txn : Transaction, f.wait = .ok txn →
        st.changePendingToValid cap =
          (.ok (), { st with txnFuture := none, transaction := some (txn.SetCap cap) }) ∧
        (txn.SetCap cap).cap = cap) ∧
      (∀ e : Err, f.wait = .error e →
        st.changePendingToValid cap =
          (.error e, { st with txnFuture := none, transaction := none }))) := by
  refine ⟨fun h => by simp [TxnState.changePendingToValid, h], fun f hf => ⟨?_, ?_⟩⟩
  · intro txn hw
    exact ⟨by simp [TxnState.changePendingToValid, hf, hw], by simp [Transaction.SetCap]⟩
  · intro e hw
    simp [TxnState.changePendingToValid, hf, hw]

/-- Witness for C7: resolving the pending state `c7St` with capacity hint
16 adopts the transaction begun at timestamp 42 and drops the future. -/
theorem resolve_pending_spec_witness :
    c7St.changePendingToValid 16 =
      (.ok (), { c7St with txnFuture := none,
                           transaction := some ((newTxn [] 42).SetCap 16) }) :=
  (((resolve_pending_spec c7St 16).2 c7Future rfl).1 (newTxn [] 42) rfl).1

/-- C8: a future flagged to fail returns the distinguished mock-timestamp
error regardless of its store and timestamp future; otherwise a successful
timestamp wait begins a transaction bound to exactly that start timestamp
(via BeginWithStartTS), and a failed timestamp wait falls back to an
ordinary Begin instead of propagating the timestamp error. -/
theorem txnFuture_wait_spec (tf : txnFuture) :
    (tf.mockFail = true → tf.wait = .error .mockGetTS) ∧
    (tf.mockFail = false →
      (∀ ts : Nat, tf.future.result = .ok ts →
        tf.wait = tf.store.BeginWithStartTS ts ∧
        (∀ txn : Transaction, tf.wait = .ok txn → txn.startTS = ts)) ∧
      (∀ e : Err, tf.future.result = .error e → tf.wait = tf.store.Begin)) := by
  refine ⟨fun h => by simp [txnFuture.wait, h], fun h => ⟨?_, ?_⟩⟩
  · intro ts hts
    refine ⟨by simp [txnFuture.wait, h, hts], ?_⟩
    intro txn hw
    simp [txnFuture.wait, h, hts, Storage.BeginWithStartTS] at hw
    cases hb : tf.store.beginWithTSFail with
    | some e => simp [hb] at hw
    | none =>
      simp [hb] at hw
      subst hw
      simp [newTxn]
  · intro e he
    simp [txnFuture.wait, h, he]

/-- Witness for C8: the success path of `c8Future` begins at exactly
timestamp 5, and the flagged future `c8MockFuture` returns the mock
timestamp error. -/
theorem txnFuture_wait_spec_witness :
    (c8Future.wait = c8Future.store.BeginWithStartTS 5 ∧
     (newTxn [] 5).startTS = 5) ∧
    c8MockFuture.wait = .error .mockGetTS :=
  ⟨⟨(((txnFuture_wait_spec c8Future).2 rfl).1 5 rfl).1,
    (((txnFuture_wait_spec c8Future).2 rfl).1 5 rfl).2 (newTxn [] 5) rfl⟩,
   (txnFuture_wait_spec c8MockFuture).1 rfl⟩

/-- C3: after Commit or Rollback — whatever the underlying outcome, with
the underlying rollback or commit error still propagated on the clean
paths — the state machine is fully reset: Invalid phase, Valid() false,
empty overlay, ledger and dirty log, fault marker cleared, and a fresh
make_pending reaches the Pending configuration. -/
theorem commit_rollback_always_resets (st : TxnState) (tx : Transaction)
    (htx : st.transaction = some tx) :
    (isResetState (st.Commit).st ∧ (st.Commit).st.Valid = false ∧
     ∀ f : txnFuture, ((st.Commit).st.changeInvalidToPending f).pending = true) ∧
    (isResetState (st.Rollback).st ∧ (st.Rollback).st.Valid = false ∧
     ∀ f : txnFuture, ((st.Rollback).st.changeInvalidToPending f).pending = true) ∧
    (st.Rollback).res = (tx.Rollback).fst ∧
    (st.buf = [] ∧ st.mutations = [] ∧ st.dirtyTableOP = [] ∧ st.doNotCommit = none →
      (st.Commit).res = (tx.Commit).fst) := by
  refine ⟨⟨?_, ?_, ?_⟩, ⟨?_, ?_, ?_⟩, ?_, ?_⟩
  · simp [TxnState.Commit, TxnState.reset, TxnState.cleanup, TxnState.changeToInvalid,
      isResetState]
  · simp [TxnState.Commit, TxnState.reset, TxnState.cleanup, TxnState.changeToInvalid,
      TxnState.Valid]
  · intro f
    simp [TxnState.Commit, TxnState.reset, TxnState.cleanup, TxnState.changeToInvalid,
      TxnState.changeInvalidToPending, TxnState.pending]
  · simp [TxnState.Rollback, TxnState.reset, TxnState.cleanup, TxnState.changeToInvalid,
      isResetState]
  · simp [TxnState.Rollback, TxnState.reset, TxnState.cleanup, TxnState.changeToInvalid,
      TxnState.Valid]
  · intro f
    simp [TxnState.Rollback, TxnState.reset, TxnState.cleanup, TxnState.changeToInvalid,
      TxnState.changeInvalidToPending, TxnState.pending]
  · simp [TxnState.Rollback, rollbackBody, htx]
  · rintro ⟨h1, h2, h3, h4⟩
    simp [TxnState.Commit, commitBody, h1, h2, h3, h4, htx]

/-- Witness for C3 at the clean valid-phase state `c3St`. -/
theorem commit_rollback_always_resets_witness :
    (isResetState (c3St.Commit).st ∧ isResetState (c3St.Rollback).st) ∧
    (c3St.Rollback).res = (baseTx.Rollback).fst ∧
    (c3St.Commit).res = (baseTx.Commit).fst :=
  ⟨⟨(commit_rollback_always_resets c3St baseTx rfl).1.1,
    (commit_rollback_always_resets c3St baseTx rfl).2.1.1⟩,
   (commit_rollback_always_resets c3St baseTx rfl).2.2.1,
   (commit_rollback_always_resets c3St baseTx rfl).2.2.2 ⟨rfl, rfl, rfl, rfl⟩⟩

/-- C10: after StmtCommit returns — drain succeeded or failed partway —
the overlay buffer, the mutation ledger and the dirty-operation log are
all empty; on failure the fault marker carries the drain error, and on
success the fault marker is exactly what it was before. -/
theorem stmt_commit_discards (s : session) (tx : Transaction)
    (htx : s.txn.transaction = some tx) :
    (s.StmtCommit).snd.txn.buf = [] ∧
    (s.StmtCommit).snd.txn.mutations = [] ∧
    (s.StmtCommit).snd.txn.dirtyTableOP = [] ∧
    (∀ e : Err, (s.StmtCommit).fst = .error e →
      (s.StmtCommit).snd.txn.doNotCommit = some e) ∧
    ((s.StmtCommit).fst = .ok () →
      (s.StmtCommit).snd.txn.doNotCommit = s.txn.doNotCommit) := by
  rcases hdr : drainBuf tx s.txn.buf with ⟨tx1, r⟩
  cases r with
  | none => simp [session.StmtCommit, htx, hdr, TxnState.cleanup]
  | some e' => simp [session.StmtCommit, htx, hdr, TxnState.cleanup]

/-- Witness for C10: a session with one overlay entry, one ledger entry and
one dirty operation is left with all three empty after StmtCommit. -/
theorem stmt_commit_discards_witness :
    (c10Session.StmtCommit).snd.txn.buf = [] ∧
    (c10Session.StmtCommit).snd.txn.mutations = [] ∧
    (c10Session.StmtCommit).snd.txn.dirtyTableOP = [] :=
  ⟨(stmt_commit_discards c10Session baseTx rfl).1,
   (stmt_commit_discards c10Session baseTx rfl).2.1,
   (stmt_commit_discards c10Session baseTx rfl).2.2.1⟩

/-- C1: a failing drain operation during StmtCommit propagates its error
and records it in the doNotCommit fault marker; the subsequent
transaction-level Commit then returns the stored fault, the underlying
transaction receives exactly one additional Rollback call and no Commit
call (a rollback error is logged, never propagated). -/
theorem fault_poisoning (s : session) (tx : Transaction) (e : Err)
    (htx : s.txn.transaction = some tx)
    (hfail : (drainBuf tx s.txn.buf).snd = some e) :
    (s.StmtCommit).fst = .error e ∧
    (s.StmtCommit).snd.txn.doNotCommit = some e ∧
    ((s.StmtCommit).snd.txn.Commit).res = .error e ∧
    (∃ txFin : Transaction,
      ((s.StmtCommit).snd.txn.Commit).txFinal = some txFin ∧
      txFin.commitCalls = tx.commitCalls ∧
      txFin.rollbackCalls = tx.rollbackCalls + 1) := by
  rcases hdr : drainBuf tx s.txn.buf with ⟨tx1, r⟩
  rw [hdr] at hfail
  simp only [] at hfail
  subst hfail
  have hcalls := drainBuf_calls s.txn.buf tx
  rw [hdr] at hcalls
  simp only [Prod.fst] at hcalls
  refine ⟨?_, ?_, ?_, ?_⟩
  · simp [session.StmtCommit, htx, hdr]
  · simp [session.StmtCommit, htx, hdr, TxnState.cleanup]
  · simp [session.StmtCommit, htx, hdr, TxnState.cleanup, TxnState.Commit, commitBody]
  · refine ⟨(tx1.Rollback).snd, ?_, ?_, ?_⟩
    · simp [session.StmtCommit, htx, hdr, TxnState.cleanup, TxnState.Commit, commitBody]
    · cases hrf : tx1.rollbackFail <;> simp [Transaction.Rollback, hrf, hcalls.1]
    · cases hrf : tx1.rollbackFail <;> simp [Transaction.Rollback, hrf, hcalls.2]

/-- Witness for C1: `c1Session` drains into a transaction whose Set fails
on key 5; StmtCommit surfaces the fault and the follow-up Commit returns
it again. -/
theorem fault_poisoning_witness :
    (c1Session.StmtCommit).fst = .error (.underlyingErr 5) ∧
    ((c1Session.StmtCommit).snd.txn.Commit).res = .error (.underlyingErr 5) :=
  ⟨(fault_poisoning c1Session c1Tx (.underlyingErr 5) rfl rfl).1,
   (fault_poisoning c1Session c1Tx (.underlyingErr 5) rfl rfl).2.2.1⟩

/-- C6: every state reachable through the transition operations from the
initial Invalid state sits in exactly one of the three phase
configurations; in particular a resolved transaction and a pending future
are never held simultaneously. -/
theorem phase_exclusivity (st : TxnState) (h : Reachable st) :
    ((invalidPhase st ∧ ¬pendingPhase st ∧ ¬validPhase st) ∨
     (¬invalidPhase st ∧ pendingPhase st ∧ ¬validPhase st) ∨
     (¬invalidPhase st ∧ ¬pendingPhase st ∧ validPhase st)) ∧
    ¬(st.transaction ≠ none ∧ st.txnFuture ≠ none) := by
  have key : st.transaction = none ∨ st.txnFuture = none := by
    induction h with
    | init => exact Or.inl rfl
    | invalidToValid st' txn hr ih => exact Or.inr rfl
    | makePending st' f hr ih => exact Or.inl rfl
    | resolvePending st' cap hr ih =>
      cases hf : st'.txnFuture with
      | none =>
        simp only [TxnState.changePendingToValid, hf]
        exact Or.inr trivial
      | some f =>
        cases hw : f.wait with
        | error e => simp [TxnState.changePendingToValid, hf, hw]
        | ok txn => simp [TxnState.changePendingToValid, hf, hw]
    | invalidate st' hr ih => exact Or.inl rfl
    | commit st' hr ih => exact Or.inl rfl
    | rollback st' hr ih => exact Or.inl rfl
    | overlaySet st' k v hr ih =>
      simp only [TxnState.Set]
      exact ih
    | overlayDel st' k hr ih =>
      simp only [TxnState.Delete]
      exact ih
  cases htr : st.transaction with
  | none =>
    cases hfu : st.txnFuture with
    | none => simp [invalidPhase, pendingPhase, validPhase, htr, hfu]
    | some f => simp [invalidPhase, pendingPhase, validPhase, htr, hfu]
  | some tx =>
    cases hfu : st.txnFuture with
    | none => simp [invalidPhase, pendingPhase, validPhase, htr, hfu]
    | some f =>
      rw [htr, hfu] at key
      simp at key

/-- Witness for C6 at the initial state, reachable by construction. -/
theorem phase_exclusivity_witness :
    ((invalidPhase initialTxnState ∧ ¬pendingPhase initialTxnState ∧
      ¬validPhase initialTxnState) ∨
     (¬invalidPhase initialTxnState ∧ pendingPhase initialTxnState ∧
      ¬validPhase initialTxnState) ∨
     (¬invalidPhase initialTxnState ∧ ¬pendingPhase initialTxnState ∧
      validPhase initialTxnState)) ∧
    ¬(initialTxnState.transaction ≠ none ∧ initialTxnState.txnFuture ≠ none) :=
  phase_exclusivity initialTxnState Reachable.init

end SessionTxn
